import Mathlib

/-!
Verification of the schema declared in src/sqlalchemy/db/models.py.

The repository contains a single declarative SQLAlchemy file defining two
mapped classes, User (table user_account) and Address (table address),
related one-to-many with cascade="all, delete-orphan".  The first part of
this file is a shallow embedding of those declarations; the second part
models, from the specification, the relational operations (insert, update,
delete, detach) that an ORM/storage runtime executes against the declared
schema, since no operational code is present in the repository.
-/

namespace Models

/-- Python-level type annotation inside Mapped[...] in models.py. -/
inductive PyType where
  | pyInt
  | pyStr
deriving DecidableEq, Repr

/-- One mapped_column declaration: its Mapped[...] annotation (type and
whether it is wrapped in Optional), the SQL String(n) length argument when
given, and the primary_key / ForeignKey arguments. -/
structure MappedColumn where
  pyType : PyType
  optional : Bool
  strLen : Option Nat
  primary_key : Bool
  foreign_key : Option String
deriving DecidableEq, Repr

/-- A mapped class: its __tablename__ and its mapped_column fields in
declaration order. -/
structure ModelClass where
  tablename : String
  columns : List (String × MappedColumn)
deriving DecidableEq, Repr

/-- A relationship(...) declaration: the target class, the back_populates
argument, and the cascade argument when given. -/
structure Relationship where
  target : String
  back_populates : String
  cascade : Option String
deriving DecidableEq, Repr

/-- class User(Base) from models.py: __tablename__ = "user_account";
id: Mapped[int] = mapped_column(primary_key=True);
name: Mapped[str] = mapped_column(String(30));
fullname: Mapped[Optional[str]] = mapped_column(String(30));
nickname: Mapped[Optional[str]] = mapped_column(String(30)). -/
def User : ModelClass :=
  { tablename := "user_account"
    columns :=
      [ ("id", ⟨.pyInt, false, none, true, none⟩),
        ("name", ⟨.pyStr, false, some 30, false, none⟩),
        ("fullname", ⟨.pyStr, true, some 30, false, none⟩),
        ("nickname", ⟨.pyStr, true, some 30, false, none⟩) ] }

/-- class Address(Base) from models.py: __tablename__ = "address";
id: Mapped[int] = mapped_column(primary_key=True);
email_address: Mapped[str] = mapped_column(String(30));
neighborhood: Mapped[str] = mapped_column(String(30));
user_id: Mapped[int] = mapped_column(ForeignKey("user_account.id")). -/
def Address : ModelClass :=
  { tablename := "address"
    columns :=
      [ ("id", ⟨.pyInt, false, none, true, none⟩),
        ("email_address", ⟨.pyStr, false, some 30, false, none⟩),
        ("neighborhood", ⟨.pyStr, false, some 30, false, none⟩),
        ("user_id", ⟨.pyInt, false, none, false, some "user_account.id"⟩) ] }

/-- addresses: Mapped[List["Address"]] = relationship(back_populates="user",
cascade="all, delete-orphan") from class User in models.py. -/
def User_addresses : Relationship :=
  { target := "Address", back_populates := "user",
    cascade := some "all, delete-orphan" }

/-- user: Mapped["User"] = relationship(back_populates="addresses") from
class Address in models.py (no cascade argument). -/
def Address_user : Relationship :=
  { target := "User", back_populates := "addresses", cascade := none }

/-- The two mapped classes declared in models.py, in order. -/
def models : List ModelClass := [User, Address]

/-- Splits a character list on commas (helper for reading a cascade
string the way SQLAlchemy does). -/
def splitOnComma : List Char → List Char → List (List Char)
  | [], acc => [acc.reverse]
  | c :: cs, acc =>
      if c = ',' then acc.reverse :: splitOnComma cs []
      else splitOnComma cs (c :: acc)

/-- Removes leading and trailing spaces from a character list. -/
def trimChars (l : List Char) : List Char :=
  ((l.dropWhile (· = ' ')).reverse.dropWhile (· = ' ')).reverse

/-- Cascade behaviors named by a relationship's cascade string: the string
is split on commas and each item trimmed, as SQLAlchemy parses it. -/
def parseCascade : Option String → List String
  | none => []
  | some s => (splitOnComma s.toList []).map fun cs => String.mk (trimChars cs)

/-- Cascade behaviors in force on the User.addresses relationship. -/
def cascades : List String := parseCascade User_addresses.cascade

/-- SQL column type produced for a mapped column. -/
inductive ColType where
  | integer
  | varchar (n : Nat)
deriving DecidableEq, Repr

/-- Shape of one SQL column as the ORM generates it from a mapped_column:
a Mapped[Optional[...]] annotation makes the column nullable (primary keys
are never nullable), String(n) gives varchar n, int gives integer. -/
structure Column where
  name : String
  ctype : ColType
  nullable : Bool
  primary_key : Bool
  references : Option String
deriving DecidableEq, Repr

/-- SQL table shape. -/
structure Table where
  name : String
  columns : List Column
deriving DecidableEq, Repr

/-- How SQLAlchemy derives one SQL column from one mapped_column
declaration. -/
def toColumn (nm : String) (m : MappedColumn) : Column :=
  { name := nm
    ctype :=
      match m.pyType, m.strLen with
      | .pyInt, _ => .integer
      | .pyStr, some n => .varchar n
      | .pyStr, none => .varchar 0
    nullable := m.optional && !m.primary_key
    primary_key := m.primary_key
    references := m.foreign_key }

/-- The SQL table generated for a mapped class. -/
def toTable (c : ModelClass) : Table :=
  { name := c.tablename, columns := c.columns.map fun p => toColumn p.1 p.2 }

/-- All tables the schema declares. -/
def schemaTables : List Table := models.map toTable

theorem cascades_eq : cascades = ["all", "delete-orphan"] := by
  decide

/-- Modelled from the spec: a persisted row of table user_account.  The
repository declares only the schema; row shapes follow the columns of
class User (optional columns hold Option values). -/
structure UserRow where
  id : Nat
  name : String
  fullname : Option String
  nickname : Option String
deriving DecidableEq, Repr

/-- Modelled from the spec: a persisted row of table address, following
the columns of class Address. -/
structure AddressRow where
  id : Nat
  email_address : String
  neighborhood : String
  user_id : Nat
deriving DecidableEq, Repr

/-- Modelled from the spec: a persisted state of the store, the rows of
the two declared tables. -/
structure DBState where
  users : List UserRow
  addresses : List AddressRow
deriving DecidableEq, Repr

/-- The empty persisted state. -/
def emptyDB : DBState := ⟨[], []⟩

/-- Modelled from the spec: the constraint-violation errors the storage
layer raises (null in a required column, string exceeding maximum length,
foreign-key reference to a non-existent User). -/
inductive DBError where
  | nullViolation (column : String)
  | lengthViolation (column : String)
  | fkViolation (column : String)
deriving DecidableEq, Repr

/-- Maximum length of every string column, from String(30) in models.py. -/
def maxLen : Nat := 30

/-- Whether a value supplied for a nullable string column violates the
String(30) length constraint (an omitted value violates nothing). -/
def badOptLen : Option String → Bool
  | none => false
  | some v => maxLen < v.length

/-- Modelled from the spec: the id the storage layer assigns to a new
user_account row (one larger than any id in use). -/
def freshUserId (s : DBState) : Nat := (s.users.map (·.id)).foldr max 0 + 1

/-- Modelled from the spec: the id the storage layer assigns to a new
address row. -/
def freshAddressId (s : DBState) : Nat :=
  (s.addresses.map (·.id)).foldr max 0 + 1

/-- Whether some user_account row has the given id. -/
def userExists (s : DBState) (k : Nat) : Bool := s.users.any (·.id == k)

/-- Modelled from the spec: inserting a User.  The caller supplies each
column value or omits it (none); the store checks NOT NULL on name, the
String(30) length constraints, assigns a fresh id and appends the row.
On any constraint violation it fails and returns the error. -/
def insertUser (s : DBState) (name fullname nickname : Option String) :
    Except DBError DBState :=
  match name with
  | none => .error (.nullViolation "name")
  | some n =>
    if maxLen < n.length then .error (.lengthViolation "name")
    else if badOptLen fullname then .error (.lengthViolation "fullname")
    else if badOptLen nickname then .error (.lengthViolation "nickname")
    else
      .ok { s with
              users := s.users ++ [⟨freshUserId s, n, fullname, nickname⟩] }

/-- Modelled from the spec: inserting an Address.  The store checks NOT
NULL on email_address, neighborhood and user_id, the String(30) length
constraints, and the foreign-key constraint that user_id references an
existing user_account.id; then it assigns a fresh id and appends the
row. -/
def insertAddress (s : DBState) (email neighborhood : Option String)
    (uid : Option Nat) : Except DBError DBState :=
  match email, neighborhood, uid with
  | none, _, _ => .error (.nullViolation "email_address")
  | _, none, _ => .error (.nullViolation "neighborhood")
  | _, _, none => .error (.nullViolation "user_id")
  | some e, some nb, some k =>
    if maxLen < e.length then .error (.lengthViolation "email_address")
    else if maxLen < nb.length then .error (.lengthViolation "neighborhood")
    else if userExists s k then
      .ok { s with
              addresses := s.addresses ++ [⟨freshAddressId s, e, nb, k⟩] }
    else .error (.fkViolation "user_id")

/-- Modelled from the spec: updating the non-id columns of the
user_account row with the given id (ids are store-assigned and not
updatable).  The same column constraints apply as on insert. -/
def updateUser (s : DBState) (uid : Nat)
    (name fullname nickname : Option String) : Except DBError DBState :=
  match name with
  | none => .error (.nullViolation "name")
  | some n =>
    if maxLen < n.length then .error (.lengthViolation "name")
    else if badOptLen fullname then .error (.lengthViolation "fullname")
    else if badOptLen nickname then .error (.lengthViolation "nickname")
    else
      .ok { s with users := s.users.map fun u =>
              if u.id = uid then
                { u with name := n, fullname := fullname,
                         nickname := nickname }
              else u }

/-- Modelled from the spec: updating the non-id columns of the address
row with the given id, including re-pointing user_id, which is checked
against the foreign-key constraint. -/
def updateAddress (s : DBState) (aid : Nat)
    (email neighborhood : Option String) (uid : Option Nat) :
    Except DBError DBState :=
  match email, neighborhood, uid with
  | none, _, _ => .error (.nullViolation "email_address")
  | _, none, _ => .error (.nullViolation "neighborhood")
  | _, _, none => .error (.nullViolation "user_id")
  | some e, some nb, some k =>
    if maxLen < e.length then .error (.lengthViolation "email_address")
    else if maxLen < nb.length then .error (.lengthViolation "neighborhood")
    else if userExists s k then
      .ok { s with addresses := s.addresses.map fun a =>
              if a.id = aid then
                { a with email_address := e, neighborhood := nb,
                         user_id := k }
              else a }
    else .error (.fkViolation "user_id")

/-- Modelled from the spec: deleting the User with the given id.  Because
the User.addresses relationship declares the all (hence delete) cascade,
the delete also removes every address row owned by that user. -/
def deleteUser (s : DBState) (uid : Nat) : DBState :=
  { users := s.users.filter fun u => u.id != uid
    addresses :=
      if "all" ∈ cascades ∨ "delete" ∈ cascades then
        s.addresses.filter fun a => a.user_id != uid
      else s.addresses }

/-- Modelled from the spec: deleting the Address with the given id. -/
def deleteAddress (s : DBState) (aid : Nat) : DBState :=
  { s with addresses := s.addresses.filter fun a => a.id != aid }

/-- Modelled from the spec: removing the Address with the given id from
its owning User's addresses collection without reassigning it.  Because
the User.addresses relationship declares delete-orphan, the orphaned row
is deleted; without that cascade the detach would leave the row in
place. -/
def detachAddress (s : DBState) (aid : Nat) : DBState :=
  if "delete-orphan" ∈ cascades then
    { s with addresses := s.addresses.filter fun a => a.id != aid }
  else s

/-- Modelled from the spec: the operations external callers perform
against the store. -/
inductive Op where
  | insUser (name fullname nickname : Option String)
  | insAddress (email neighborhood : Option String) (uid : Option Nat)
  | updUser (id : Nat) (name fullname nickname : Option String)
  | updAddress (id : Nat) (email neighborhood : Option String)
      (uid : Option Nat)
  | delUser (id : Nat)
  | delAddress (id : Nat)
  | detach (id : Nat)
deriving DecidableEq, Repr

/-- Modelled from the spec: one operation applied to a persisted state; a
failed (constraint-violating) operation leaves the state unchanged. -/
def applyOp (s : DBState) : Op → DBState
  | .insUser n f nn =>
      match insertUser s n f nn with
      | .ok t => t
      | .error _ => s
  | .insAddress e nb k =>
      match insertAddress s e nb k with
      | .ok t => t
      | .error _ => s
  | .updUser i n f nn =>
      match updateUser s i n f nn with
      | .ok t => t
      | .error _ => s
  | .updAddress i e nb k =>
      match updateAddress s i e nb k with
      | .ok t => t
      | .error _ => s
  | .delUser i => deleteUser s i
  | .delAddress i => deleteAddress s i
  | .detach i => detachAddress s i

/-- Modelled from the spec: the persisted states reachable from the empty
store by a sequence of completed operations. -/
inductive Reachable : DBState → Prop where
  | init : Reachable emptyDB
  | step (s : DBState) (o : Op) : Reachable s → Reachable (applyOp s o)

/-- The addresses collection of a User, derived by the ORM from the
foreign key: the address rows whose user_id is the user's id. -/
def addressesOf (s : DBState) (u : UserRow) : List AddressRow :=
  s.addresses.filter fun a => a.user_id == u.id

/-- The user back-reference of an Address, derived by the ORM from the
foreign key: the user_account row its user_id references. -/
def userOf (s : DBState) (a : AddressRow) : Option UserRow :=
  s.users.find? fun u => u.id == a.user_id

theorem le_foldr_max (l : List Nat) : ∀ x ∈ l, x ≤ l.foldr max 0 := by
  induction l with
  | nil => simp
  | cons a t ih =>
    intro x hx
    rcases List.mem_cons.mp hx with rfl | hx
    · exact le_max_left _ _
    · exact le_trans (ih x hx) (le_max_right _ _)

theorem id_lt_freshUserId (s : DBState) :
    ∀ u ∈ s.users, u.id < freshUserId s := by
  intro u hu
  have h := le_foldr_max (s.users.map (·.id)) u.id
    (List.mem_map_of_mem _ hu)
  simp only [freshUserId]
  omega

theorem id_lt_freshAddressId (s : DBState) :
    ∀ a ∈ s.addresses, a.id < freshAddressId s := by
  intro a ha
  have h := le_foldr_max (s.addresses.map (·.id)) a.id
    (List.mem_map_of_mem _ ha)
  simp only [freshAddressId]
  omega

theorem userExists_iff (s : DBState) (k : Nat) :
    userExists s k = true ↔ ∃ u ∈ s.users, u.id = k := by
  simp [userExists]

theorem insertUser_ok {s t : DBState} {name f nn : Option String}
    (h : insertUser s name f nn = .ok t) :
    ∃ n, name = some n ∧
      t = { s with users := s.users ++ [⟨freshUserId s, n, f, nn⟩] } := by
  rcases name with _ | n
  · simp [insertUser] at h
  refine ⟨n, rfl, ?_⟩
  simp only [insertUser] at h
  (split_ifs at h; simp_all)

theorem insertAddress_ok {s t : DBState} {e nb : Option String}
    {uid : Option Nat} (h : insertAddress s e nb uid = .ok t) :
    ∃ ev nbv k, e = some ev ∧ nb = some nbv ∧ uid = some k ∧
      userExists s k = true ∧
      t = { s with
              addresses := s.addresses ++ [⟨freshAddressId s, ev, nbv, k⟩] } := by
  rcases e with _ | ev
  · simp [insertAddress] at h
  rcases nb with _ | nbv
  · simp [insertAddress] at h
  rcases uid with _ | k
  · simp [insertAddress] at h
  refine ⟨ev, nbv, k, rfl, rfl, rfl, ?_⟩
  simp only [insertAddress] at h
  (split_ifs at h; simp_all)

theorem updateUser_ok {s t : DBState} {uid : Nat} {name f nn : Option String}
    (h : updateUser s uid name f nn = .ok t) :
    ∃ n, name = some n ∧
      t = { s with users := s.users.map fun u =>
              if u.id = uid then
                { u with name := n, fullname := f, nickname := nn }
              else u } := by
  rcases name with _ | n
  · simp [updateUser] at h
  refine ⟨n, rfl, ?_⟩
  simp only [updateUser] at h
  (split_ifs at h; simp_all)

theorem updateAddress_ok {s t : DBState} {aid : Nat}
    {e nb : Option String} {uid : Option Nat}
    (h : updateAddress s aid e nb uid = .ok t) :
    ∃ ev nbv k, e = some ev ∧ nb = some nbv ∧ uid = some k ∧
      userExists s k = true ∧
      t = { s with addresses := s.addresses.map fun a =>
              if a.id = aid then
                { a with email_address := ev, neighborhood := nbv,
                         user_id := k }
              else a } := by
  rcases e with _ | ev
  · simp [updateAddress] at h
  rcases nb with _ | nbv
  · simp [updateAddress] at h
  rcases uid with _ | k
  · simp [updateAddress] at h
  refine ⟨ev, nbv, k, rfl, rfl, rfl, ?_⟩
  simp only [updateAddress] at h
  (split_ifs at h; simp_all)

theorem deleteUser_eq (s : DBState) (uid : Nat) :
    deleteUser s uid =
      { users := s.users.filter fun u => u.id != uid
        addresses := s.addresses.filter fun a => a.user_id != uid } := by
  simp [deleteUser, cascades_eq]

theorem nodup_filter_map {α β : Type _} (f : α → β) (p : α → Bool)
    (l : List α) (h : (l.map f).Nodup) : ((l.filter p).map f).Nodup :=
  List.Nodup.sublist (List.Sublist.map f (List.filter_sublist l)) h

/-- The structural invariant of a persisted state: referential integrity
of address.user_id and uniqueness of the primary keys of both tables. -/
structure Invariant (s : DBState) : Prop where
  fk : ∀ a ∈ s.addresses, ∃ u ∈ s.users, u.id = a.user_id
  usersNodup : (s.users.map UserRow.id).Nodup
  addrNodup : (s.addresses.map AddressRow.id).Nodup

theorem invariant_empty : Invariant emptyDB := by
  refine ⟨?_, ?_, ?_⟩ <;> simp [emptyDB]

theorem invariant_insertUser {s t : DBState} {name f nn : Option String}
    (hs : Invariant s) (h : insertUser s name f nn = .ok t) :
    Invariant t := by
  obtain ⟨n, rfl, rfl⟩ := insertUser_ok h
  refine ⟨?_, ?_, hs.addrNodup⟩
  · intro a ha
    obtain ⟨u, hu, hid⟩ := hs.fk a ha
    exact ⟨u, List.mem_append_left _ hu, hid⟩
  · simp only [List.map_append, List.map_cons, List.map_nil,
      List.nodup_append]
    refine ⟨hs.usersNodup, List.nodup_singleton _, ?_⟩
    intro x hx hx2
    simp only [List.mem_singleton] at hx2
    obtain ⟨u, hu, rfl⟩ := List.mem_map.mp hx
    have := id_lt_freshUserId s u hu
    omega

theorem invariant_insertAddress {s t : DBState} {e nb : Option String}
    {uid : Option Nat} (hs : Invariant s)
    (h : insertAddress s e nb uid = .ok t) : Invariant t := by
  obtain ⟨ev, nbv, k, rfl, rfl, rfl, hex, rfl⟩ := insertAddress_ok h
  refine ⟨?_, hs.usersNodup, ?_⟩
  · intro a ha
    rcases List.mem_append.mp ha with ha | ha
    · exact hs.fk a ha
    · simp only [List.mem_singleton] at ha
      subst ha
      exact (userExists_iff s k).mp hex
  · simp only [List.map_append, List.map_cons, List.map_nil,
      List.nodup_append]
    refine ⟨hs.addrNodup, List.nodup_singleton _, ?_⟩
    intro x hx hx2
    simp only [List.mem_singleton] at hx2
    obtain ⟨a, ha, rfl⟩ := List.mem_map.mp hx
    have := id_lt_freshAddressId s a ha
    omega

theorem invariant_updateUser {s t : DBState} {uid : Nat}
    {name f nn : Option String} (hs : Invariant s)
    (h : updateUser s uid name f nn = .ok t) : Invariant t := by
  obtain ⟨n, rfl, rfl⟩ := updateUser_ok h
  have hgid : ∀ u : UserRow,
      ((fun u : UserRow =>
        if u.id = uid then
          { u with name := n, fullname := f, nickname := nn }
        else u) u).id = u.id := by
    intro u
    by_cases h2 : u.id = uid <;> simp [h2]
  have hids : ((s.users.map fun u =>
      if u.id = uid then
        { u with name := n, fullname := f, nickname := nn }
      else u).map UserRow.id) = s.users.map UserRow.id := by
    rw [List.map_map]
    exact List.map_congr_left fun u _ => hgid u
  refine ⟨?_, ?_, hs.addrNodup⟩
  · intro a ha
    obtain ⟨u, hu, hid⟩ := hs.fk a ha
    refine ⟨_, List.mem_map_of_mem _ hu, ?_⟩
    rw [hgid u]
    exact hid
  · rw [hids]; exact hs.usersNodup

theorem invariant_updateAddress {s t : DBState} {aid : Nat}
    {e nb : Option String} {uid : Option Nat} (hs : Invariant s)
    (h : updateAddress s aid e nb uid = .ok t) : Invariant t := by
  obtain ⟨ev, nbv, k, rfl, rfl, rfl, hex, rfl⟩ := updateAddress_ok h
  have hids : ((s.addresses.map fun a =>
      if a.id = aid then
        { a with email_address := ev, neighborhood := nbv, user_id := k }
      else a).map AddressRow.id) = s.addresses.map AddressRow.id := by
    rw [List.map_map]
    refine List.map_congr_left ?_
    intro a _
    by_cases ha : a.id = aid <;> simp [ha]
  refine ⟨?_, hs.usersNodup, ?_⟩
  · intro a ha
    obtain ⟨b, hb, rfl⟩ := List.mem_map.mp ha
    by_cases h2 : b.id = aid
    · simp only [h2, if_pos rfl, if_true]
      simpa using (userExists_iff s k).mp hex
    · simp only [if_neg h2]
      exact hs.fk b hb
  · rw [hids]; exact hs.addrNodup

theorem invariant_deleteUser {s : DBState} (uid : Nat) (hs : Invariant s) :
    Invariant (deleteUser s uid) := by
  rw [deleteUser_eq]
  refine ⟨?_, ?_, ?_⟩
  · intro a ha
    obtain ⟨ha1, ha2⟩ := List.mem_filter.mp ha
    obtain ⟨u, hu, hid⟩ := hs.fk a ha1
    refine ⟨u, List.mem_filter.mpr ⟨hu, ?_⟩, hid⟩
    simp only [bne_iff_ne, ne_eq] at ha2 ⊢
    omega
  · exact nodup_filter_map _ _ _ hs.usersNodup
  · exact nodup_filter_map _ _ _ hs.addrNodup

theorem invariant_deleteAddress {s : DBState} (aid : Nat)
    (hs : Invariant s) : Invariant (deleteAddress s aid) := by
  refine ⟨?_, hs.usersNodup, nodup_filter_map _ _ _ hs.addrNodup⟩
  intro a ha
  exact hs.fk a (List.mem_filter.mp ha).1

theorem detachAddress_eq (s : DBState) (aid : Nat) :
    detachAddress s aid =
      { s with addresses := s.addresses.filter fun a => a.id != aid } := by
  simp [detachAddress, cascades_eq]

theorem invariant_detachAddress {s : DBState} (aid : Nat)
    (hs : Invariant s) : Invariant (detachAddress s aid) := by
  rw [detachAddress_eq]
  refine ⟨?_, hs.usersNodup, nodup_filter_map _ _ _ hs.addrNodup⟩
  intro a ha
  exact hs.fk a (List.mem_filter.mp ha).1

theorem invariant_applyOp {s : DBState} (hs : Invariant s) (o : Op) :
    Invariant (applyOp s o) := by
  cases o with
  | insUser n f nn =>
    rcases h : insertUser s n f nn with e | t
    · simpa [applyOp, h] using hs
    · simpa [applyOp, h] using invariant_insertUser hs h
  | insAddress e nb k =>
    rcases h : insertAddress s e nb k with e2 | t
    · simpa [applyOp, h] using hs
    · simpa [applyOp, h] using invariant_insertAddress hs h
  | updUser i n f nn =>
    rcases h : updateUser s i n f nn with e | t
    · simpa [applyOp, h] using hs
    · simpa [applyOp, h] using invariant_updateUser hs h
  | updAddress i e nb k =>
    rcases h : updateAddress s i e nb k with e2 | t
    · simpa [applyOp, h] using hs
    · simpa [applyOp, h] using invariant_updateAddress hs h
  | delUser i => exact invariant_deleteUser i hs
  | delAddress i => exact invariant_deleteAddress i hs
  | detach i => exact invariant_detachAddress i hs

theorem invariant_reachable {s : DBState} (h : Reachable s) :
    Invariant s := by
  induction h with
  | init => exact invariant_empty
  | step s o _ ih => exact invariant_applyOp ih o

theorem updateUser_shape_ids {s t : DBState} {uid : Nat}
    {name f nn : Option String} (h : updateUser s uid name f nn = .ok t) :
    t.users.map UserRow.id = s.users.map UserRow.id ∧
      t.addresses = s.addresses := by
  obtain ⟨n, rfl, rfl⟩ := updateUser_ok h
  refine ⟨?_, rfl⟩
  rw [List.map_map]
  refine List.map_congr_left ?_
  intro u _
  by_cases h2 : u.id = uid <;> simp [h2]

theorem updateAddress_shape_ids {s t : DBState} {aid : Nat}
    {e nb : Option String} {uid : Option Nat}
    (h : updateAddress s aid e nb uid = .ok t) :
    t.addresses.map AddressRow.id = s.addresses.map AddressRow.id ∧
      t.users = s.users := by
  obtain ⟨ev, nbv, k, rfl, rfl, rfl, _, rfl⟩ := updateAddress_ok h
  refine ⟨?_, rfl⟩
  rw [List.map_map]
  refine List.map_congr_left ?_
  intro a _
  by_cases h2 : a.id = aid <;> simp [h2]

theorem freshUserId_not_mem (s : DBState) :
    freshUserId s ∉ s.users.map UserRow.id := by
  intro h
  obtain ⟨u, hu, he⟩ := List.mem_map.mp h
  have h2 := id_lt_freshUserId s u hu
  omega

theorem freshAddressId_not_mem (s : DBState) :
    freshAddressId s ∉ s.addresses.map AddressRow.id := by
  intro h
  obtain ⟨a, ha, he⟩ := List.mem_map.mp h
  have h2 := id_lt_freshAddressId s a ha
  omega

theorem applyOp_user_ids_cases (s : DBState) (o : Op) :
    (applyOp s o).users.map UserRow.id = s.users.map UserRow.id ∨
    (applyOp s o).users.map UserRow.id =
      s.users.map UserRow.id ++ [freshUserId s] ∨
    (applyOp s o).users.Sublist s.users := by
  cases o with
  | insUser n f nn =>
    rcases h : insertUser s n f nn with e | t
    · left; simp [applyOp, h]
    · obtain ⟨n2, _, rfl⟩ := insertUser_ok h
      right; left; simp [applyOp, h]
  | insAddress e nb k =>
    rcases h : insertAddress s e nb k with e2 | t
    · left; simp [applyOp, h]
    · obtain ⟨ev, nbv, k2, _, _, _, _, rfl⟩ := insertAddress_ok h
      left; simp [applyOp, h]
  | updUser i n f nn =>
    rcases h : updateUser s i n f nn with e | t
    · left; simp [applyOp, h]
    · left
      simp only [applyOp, h]
      exact (updateUser_shape_ids h).1
  | updAddress i e nb k =>
    rcases h : updateAddress s i e nb k with e2 | t
    · left; simp [applyOp, h]
    · left
      simp only [applyOp, h]
      rw [(updateAddress_shape_ids h).2]
  | delUser i =>
    right; right
    simp only [applyOp, deleteUser_eq]
    exact List.filter_sublist _
  | delAddress i =>
    left; simp [applyOp, deleteAddress]
  | detach i =>
    left; simp [applyOp, detachAddress_eq]

theorem applyOp_addr_ids_cases (s : DBState) (o : Op) :
    (applyOp s o).addresses.map AddressRow.id =
      s.addresses.map AddressRow.id ∨
    (applyOp s o).addresses.map AddressRow.id =
      s.addresses.map AddressRow.id ++ [freshAddressId s] ∨
    (applyOp s o).addresses.Sublist s.addresses := by
  cases o with
  | insUser n f nn =>
    rcases h : insertUser s n f nn with e | t
    · left; simp [applyOp, h]
    · obtain ⟨n2, _, rfl⟩ := insertUser_ok h
      left; simp [applyOp, h]
  | insAddress e nb k =>
    rcases h : insertAddress s e nb k with e2 | t
    · left; simp [applyOp, h]
    · obtain ⟨ev, nbv, k2, _, _, _, _, rfl⟩ := insertAddress_ok h
      right; left; simp [applyOp, h]
  | updUser i n f nn =>
    rcases h : updateUser s i n f nn with e | t
    · left; simp [applyOp, h]
    · left
      simp only [applyOp, h]
      rw [(updateUser_shape_ids h).2]
  | updAddress i e nb k =>
    rcases h : updateAddress s i e nb k with e2 | t
    · left; simp [applyOp, h]
    · left
      simp only [applyOp, h]
      exact (updateAddress_shape_ids h).1
  | delUser i =>
    right; right
    simp only [applyOp, deleteUser_eq]
    exact List.filter_sublist _
  | delAddress i =>
    right; right
    simp only [applyOp, deleteAddress]
    exact List.filter_sublist _
  | detach i =>
    right; right
    simp only [applyOp, detachAddress_eq]
    exact List.filter_sublist _

theorem find_id_eq {l : List UserRow} (hn : (l.map UserRow.id).Nodup)
    {u : UserRow} (hu : u ∈ l) :
    l.find? (fun v => v.id == u.id) = some u := by
  induction l with
  | nil => cases hu
  | cons a t ih =>
    rcases List.mem_cons.mp hu with rfl | hu
    · exact List.find?_cons_of_pos _ (by simp)
    · have hn2 : (t.map UserRow.id).Nodup :=
        (List.nodup_cons.mp (by simpa using hn)).2
      have hne : (a.id == u.id) = false := by
        simp only [beq_eq_false_iff_ne, ne_eq]
        intro h
        exact (List.nodup_cons.mp (by simpa using hn)).1
          (h ▸ List.mem_map_of_mem UserRow.id hu)
      rw [List.find?_cons_of_neg _ (by simp [hne])]
      exact ih hn2 hu

/-- C1: deleting a User deletes every Address whose user_id equals its id;
after the delete no address row owned by that user remains, and the user's
derived addresses collection is empty. -/
theorem deleteUser_cascades (s : DBState) (u : UserRow) (_hu : u ∈ s.users) :
    (∀ a ∈ (deleteUser s u.id).addresses, a.user_id ≠ u.id) ∧
      addressesOf (deleteUser s u.id) u = [] := by
  rw [deleteUser_eq]
  constructor
  · intro a ha
    have h2 := (List.mem_filter.mp ha).2
    simpa using h2
  · refine List.eq_nil_iff_forall_not_mem.mpr ?_
    intro a ha
    have h1 := List.mem_filter.mp ha
    have h2 := (List.mem_filter.mp h1.1).2
    have h3 := h1.2
    simp only [bne_iff_ne, ne_eq] at h2
    simp only [beq_iff_eq] at h3
    exact h2 h3

/-- C1 witness at a concrete two-user, two-address state. -/
theorem deleteUser_cascades_witness :
    ((⟨1, "alice", none, none⟩ : UserRow) ∈
      (⟨[⟨1, "alice", none, none⟩, ⟨2, "bob", none, none⟩],
        [⟨1, "a@x", "north", 1⟩, ⟨2, "b@x", "south", 2⟩]⟩ : DBState).users) ∧
    ∀ a ∈ (deleteUser
        (⟨[⟨1, "alice", none, none⟩, ⟨2, "bob", none, none⟩],
          [⟨1, "a@x", "north", 1⟩, ⟨2, "b@x", "south", 2⟩]⟩ : DBState)
        (⟨1, "alice", none, none⟩ : UserRow).id).addresses,
      a.user_id ≠ (⟨1, "alice", none, none⟩ : UserRow).id :=
  ⟨by decide,
    (deleteUser_cascades
      (⟨[⟨1, "alice", none, none⟩, ⟨2, "bob", none, none⟩],
        [⟨1, "a@x", "north", 1⟩, ⟨2, "b@x", "south", 2⟩]⟩ : DBState)
      (⟨1, "alice", none, none⟩ : UserRow) (by decide)).1⟩

/-- C2: in every reachable persisted state, every address row's user_id is
the id of some existing user row. -/
theorem referential_integrity (s : DBState) (h : Reachable s) :
    ∀ a ∈ s.addresses, ∃ u ∈ s.users, u.id = a.user_id :=
  (invariant_reachable h).fk

/-- C2 witness on the state reached by inserting one user and then one
address referencing it. -/
theorem referential_integrity_witness :
    (⟨1, "a@x", "north", 1⟩ : AddressRow) ∈
      (applyOp (applyOp emptyDB (Op.insUser (some "alice") none none))
        (Op.insAddress (some "a@x") (some "north") (some 1))).addresses ∧
    ∃ u ∈ (applyOp (applyOp emptyDB (Op.insUser (some "alice") none none))
        (Op.insAddress (some "a@x") (some "north") (some 1))).users,
      u.id = (⟨1, "a@x", "north", 1⟩ : AddressRow).user_id :=
  ⟨by decide,
    referential_integrity _
      (Reachable.step _ _ (Reachable.step _ _ Reachable.init))
      (⟨1, "a@x", "north", 1⟩ : AddressRow) (by decide)⟩

/-- C3: removing an address from its owner's collection without
reassigning it deletes the row from the persisted state (orphan removal),
while every other address row survives the detach. -/
theorem detachAddress_deletes (s : DBState) (u : UserRow) (a : AddressRow)
    (_ha : a ∈ addressesOf s u) :
    a ∉ (detachAddress s a.id).addresses ∧
      ∀ b ∈ s.addresses, b.id ≠ a.id →
        b ∈ (detachAddress s a.id).addresses := by
  rw [detachAddress_eq]
  constructor
  · intro hmem
    have h2 := (List.mem_filter.mp hmem).2
    simp at h2
  · intro b hb hne
    exact List.mem_filter.mpr ⟨hb, by simpa using hne⟩

/-- C3 witness: detaching the single address of a concrete user removes
it from the persisted state. -/
theorem detachAddress_deletes_witness :
    ((⟨1, "a@x", "north", 1⟩ : AddressRow) ∈
      addressesOf (⟨[⟨1, "alice", none, none⟩], [⟨1, "a@x", "north", 1⟩]⟩ :
        DBState) ⟨1, "alice", none, none⟩) ∧
    (⟨1, "a@x", "north", 1⟩ : AddressRow) ∉
      (detachAddress (⟨[⟨1, "alice", none, none⟩], [⟨1, "a@x", "north", 1⟩]⟩ :
        DBState) (⟨1, "a@x", "north", 1⟩ : AddressRow).id).addresses :=
  ⟨by decide,
    (detachAddress_deletes
      (⟨[⟨1, "alice", none, none⟩], [⟨1, "a@x", "north", 1⟩]⟩ : DBState)
      ⟨1, "alice", none, none⟩ ⟨1, "a@x", "north", 1⟩ (by decide)).1⟩

/-- C4: inserting an address whose user_id matches no existing user fails
with the referential-integrity error, and the failed operation leaves the
persisted state unchanged. -/
theorem insertAddress_fk_error (s : DBState) (e nb : String) (k : Nat)
    (he : e.length ≤ maxLen) (hnb : nb.length ≤ maxLen)
    (hk : ∀ u ∈ s.users, u.id ≠ k) :
    insertAddress s (some e) (some nb) (some k) =
      .error (.fkViolation "user_id") ∧
    applyOp s (.insAddress (some e) (some nb) (some k)) = s := by
  have hex : userExists s k = false := by
    rw [← Bool.not_eq_true, userExists_iff]
    rintro ⟨u, hu, rfl⟩
    exact hk u hu rfl
  have he2 : ¬ (maxLen < e.length) := by omega
  have hnb2 : ¬ (maxLen < nb.length) := by omega
  have h1 : insertAddress s (some e) (some nb) (some k) =
      .error (.fkViolation "user_id") := by
    simp [insertAddress, he2, hnb2, hex]
  exact ⟨h1, by simp [applyOp, h1]⟩

/-- C4 witness: inserting an address for user id 5 into a state whose only
user has id 1 fails and changes nothing. -/
theorem insertAddress_fk_error_witness :
    insertAddress (⟨[⟨1, "alice", none, none⟩], []⟩ : DBState)
        (some "a@x") (some "north") (some 5) =
      .error (.fkViolation "user_id") ∧
    applyOp (⟨[⟨1, "alice", none, none⟩], []⟩ : DBState)
        (.insAddress (some "a@x") (some "north") (some 5)) =
      (⟨[⟨1, "alice", none, none⟩], []⟩ : DBState) :=
  insertAddress_fk_error (⟨[⟨1, "alice", none, none⟩], []⟩ : DBState)
    "a@x" "north" 5 (by decide) (by decide) (by decide)

/-- C5: inserting a valid User and then an Address whose user_id is the
new user's id both succeed, and the new address is an element of the
addresses collection derived for that user. -/
theorem create_then_navigate (s : DBState) (n e nb : String)
    (f nn : Option String) (hn : n.length ≤ maxLen)
    (hf : badOptLen f = false) (hnn : badOptLen nn = false)
    (he : e.length ≤ maxLen) (hnb : nb.length ≤ maxLen) :
    ∃ t1 t2 : DBState,
      insertUser s (some n) f nn = .ok t1 ∧
      insertAddress t1 (some e) (some nb) (some (freshUserId s)) = .ok t2 ∧
      (⟨freshAddressId t1, e, nb, freshUserId s⟩ : AddressRow) ∈
        addressesOf t2 ⟨freshUserId s, n, f, nn⟩ := by
  have hn2 : ¬ (maxLen < n.length) := by omega
  have he2 : ¬ (maxLen < e.length) := by omega
  have hnb2 : ¬ (maxLen < nb.length) := by omega
  have h1 : insertUser s (some n) f nn =
      .ok { s with users := s.users ++ [⟨freshUserId s, n, f, nn⟩] } := by
    simp [insertUser, hn2, hf, hnn]
  have hex : userExists
      { s with users := s.users ++ [⟨freshUserId s, n, f, nn⟩] }
      (freshUserId s) = true := by
    rw [userExists_iff]
    exact ⟨⟨freshUserId s, n, f, nn⟩,
      List.mem_append_right _ (List.mem_singleton.mpr rfl), rfl⟩
  have h2 : insertAddress
      { s with users := s.users ++ [⟨freshUserId s, n, f, nn⟩] }
      (some e) (some nb) (some (freshUserId s)) =
      .ok { users := s.users ++ [⟨freshUserId s, n, f, nn⟩],
            addresses := s.addresses ++
              [⟨freshAddressId
                  { s with users := s.users ++ [⟨freshUserId s, n, f, nn⟩] },
                e, nb, freshUserId s⟩] } := by
    simp [insertAddress, he2, hnb2, hex]
  refine ⟨_, _, h1, h2, ?_⟩
  refine List.mem_filter.mpr ?_
  exact ⟨List.mem_append_right _ (List.mem_singleton.mpr rfl), by simp⟩

/-- C5 witness starting from the empty store. -/
theorem create_then_navigate_witness :
    ∃ t1 t2 : DBState,
      insertUser emptyDB (some "alice") none none = .ok t1 ∧
      insertAddress t1 (some "a@x") (some "north")
        (some (freshUserId emptyDB)) = .ok t2 ∧
      (⟨freshAddressId t1, "a@x", "north", freshUserId emptyDB⟩ :
          AddressRow) ∈
        addressesOf t2 ⟨freshUserId emptyDB, "alice", none, none⟩ :=
  create_then_navigate emptyDB "alice" "a@x" "north" none none
    (by decide) (by decide) (by decide) (by decide) (by decide)

/-- Varchar length of a column, when it is a string column. -/
def varcharLen (c : Column) : Option Nat :=
  match c.ctype with
  | .varchar n => some n
  | .integer => none

/-- A 31-character string, one over the declared maximum. -/
def long31 : String := "0123456789012345678901234567890"

/-- C6: a name longer than 30 characters makes the User insert fail with
the length-constraint error; the same 30-character maximum governs
fullname, nickname, email_address and neighborhood, behaviorally and in
the generated schema (every string column of both tables is varchar 30). -/
theorem length_constraint_30 :
    (∀ (s : DBState) (n : String) (f nn : Option String),
        maxLen < n.length →
        insertUser s (some n) f nn = .error (.lengthViolation "name")) ∧
    (∀ (s : DBState) (n v : String) (nn : Option String),
        n.length ≤ maxLen → maxLen < v.length →
        insertUser s (some n) (some v) nn =
          .error (.lengthViolation "fullname")) ∧
    (∀ (s : DBState) (n v : String),
        n.length ≤ maxLen → maxLen < v.length →
        insertUser s (some n) none (some v) =
          .error (.lengthViolation "nickname")) ∧
    (∀ (s : DBState) (e nb : String) (k : Nat),
        maxLen < e.length →
        insertAddress s (some e) (some nb) (some k) =
          .error (.lengthViolation "email_address")) ∧
    (∀ (s : DBState) (e nb : String) (k : Nat),
        e.length ≤ maxLen → maxLen < nb.length →
        insertAddress s (some e) (some nb) (some k) =
          .error (.lengthViolation "neighborhood")) ∧
    ((toTable User).columns.filterMap varcharLen = [30, 30, 30] ∧
      (toTable Address).columns.filterMap varcharLen = [30, 30] ∧
      maxLen = 30) := by
  refine ⟨?_, ?_, ?_, ?_, ?_, by decide⟩
  · intro s n f nn h
    simp [insertUser, h]
  · intro s n v nn h1 h2
    have h3 : ¬ (maxLen < n.length) := by omega
    simp [insertUser, h3, badOptLen, h2]
  · intro s n v h1 h2
    have h3 : ¬ (maxLen < n.length) := by omega
    simp [insertUser, h3, badOptLen, h2]
  · intro s e nb k h
    simp [insertAddress, h]
  · intro s e nb k h1 h2
    have h3 : ¬ (maxLen < e.length) := by omega
    simp [insertAddress, h3, h2]

/-- C6 witness: each length-constrained insert fails on a concrete
31-character value. -/
theorem length_constraint_30_witness :
    insertUser emptyDB (some long31) (some "f") none =
      .error (.lengthViolation "name") ∧
    insertUser emptyDB (some "alice") (some long31) none =
      .error (.lengthViolation "fullname") ∧
    insertUser emptyDB (some "alice") none (some long31) =
      .error (.lengthViolation "nickname") ∧
    insertAddress emptyDB (some long31) (some "north") (some 1) =
      .error (.lengthViolation "email_address") ∧
    insertAddress emptyDB (some "a@x") (some long31) (some 1) =
      .error (.lengthViolation "neighborhood") :=
  ⟨length_constraint_30.1 emptyDB long31 (some "f") none (by decide),
    length_constraint_30.2.1 emptyDB "alice" long31 none (by decide)
      (by decide),
    length_constraint_30.2.2.1 emptyDB "alice" long31 (by decide)
      (by decide),
    length_constraint_30.2.2.2.1 emptyDB long31 "north" 1 (by decide),
    length_constraint_30.2.2.2.2.1 emptyDB "a@x" long31 1 (by decide)
      (by decide)⟩

/-- C7 counterexample: with fullname and nickname omitted, inserting a
User whose required name field is a 31-character string fails with the
length-constraint error instead of succeeding, so the insert does not
succeed for every value of the required fields. -/
theorem optional_columns_cex :
    insertUser emptyDB (some long31) none none =
      .error (.lengthViolation "name") := by
  rfl

/-- C7 (amended): inserting a User with fullname and nickname omitted
succeeds for every value of the required name field within the length
constraint, whereas inserting a User with name omitted, or an Address
with email_address, neighborhood, or user_id omitted, fails with a
null-constraint violation. -/
theorem optional_vs_required_columns :
    (∀ (s : DBState) (n : String), n.length ≤ maxLen →
        ∃ t, insertUser s (some n) none none = .ok t) ∧
    (∀ (s : DBState) (f nn : Option String),
        insertUser s none f nn = .error (.nullViolation "name")) ∧
    (∀ (s : DBState) (nb : Option String) (k : Option Nat),
        insertAddress s none nb k =
          .error (.nullViolation "email_address")) ∧
    (∀ (s : DBState) (e : String) (k : Option Nat),
        insertAddress s (some e) none k =
          .error (.nullViolation "neighborhood")) ∧
    (∀ (s : DBState) (e nb : String),
        insertAddress s (some e) (some nb) none =
          .error (.nullViolation "user_id")) := by
  refine ⟨?_, ?_, ?_, ?_, ?_⟩
  · intro s n h
    have h2 : ¬ (maxLen < n.length) := by omega
    exact ⟨{ s with users := s.users ++ [⟨freshUserId s, n, none, none⟩] },
      by simp [insertUser, h2, badOptLen]⟩
  · intro s f nn
    simp [insertUser]
  · intro s nb k
    simp [insertAddress]
  · intro s e k
    simp [insertAddress]
  · intro s e nb
    simp [insertAddress]

/-- C7 witness: the optional-column insert succeeds and each omitted
required column fails, at concrete inputs. -/
theorem optional_vs_required_columns_witness :
    (∃ t, insertUser emptyDB (some "alice") none none = .ok t) ∧
    insertUser emptyDB none (some "f") (some "n") =
      .error (.nullViolation "name") ∧
    insertAddress emptyDB none (some "north") (some 1) =
      .error (.nullViolation "email_address") ∧
    insertAddress emptyDB (some "a@x") none (some 1) =
      .error (.nullViolation "neighborhood") ∧
    insertAddress emptyDB (some "a@x") (some "north") none =
      .error (.nullViolation "user_id") :=
  ⟨optional_vs_required_columns.1 emptyDB "alice" (by decide),
    optional_vs_required_columns.2.1 emptyDB (some "f") (some "n"),
    optional_vs_required_columns.2.2.1 emptyDB (some "north") (some 1),
    optional_vs_required_columns.2.2.2.1 emptyDB "a@x" (some 1),
    optional_vs_required_columns.2.2.2.2 emptyDB "a@x" "north"⟩

/-- C8: in every reachable state the user ids and the address ids are
each free of duplicates, the id the store would assign next is never an
id already in use, and no operation rewrites a surviving row's id: after
any operation the id list of each table is pointwise unchanged, or
pointwise unchanged with the single fresh id appended (a successful
insert), or the remaining rows are literally a sublist of the previous
rows (a delete), so every row still present keeps the id it had. -/
theorem ids_unique_and_immutable (s : DBState) (h : Reachable s) :
    (s.users.map UserRow.id).Nodup ∧
    (s.addresses.map AddressRow.id).Nodup ∧
    freshUserId s ∉ s.users.map UserRow.id ∧
    freshAddressId s ∉ s.addresses.map AddressRow.id ∧
    ∀ o : Op,
      ((applyOp s o).users.map UserRow.id = s.users.map UserRow.id ∨
        (applyOp s o).users.map UserRow.id =
          s.users.map UserRow.id ++ [freshUserId s] ∨
        (applyOp s o).users.Sublist s.users) ∧
      ((applyOp s o).addresses.map AddressRow.id =
          s.addresses.map AddressRow.id ∨
        (applyOp s o).addresses.map AddressRow.id =
          s.addresses.map AddressRow.id ++ [freshAddressId s] ∨
        (applyOp s o).addresses.Sublist s.addresses) :=
  ⟨(invariant_reachable h).usersNodup, (invariant_reachable h).addrNodup,
    freshUserId_not_mem s, freshAddressId_not_mem s,
    fun o => ⟨applyOp_user_ids_cases s o, applyOp_addr_ids_cases s o⟩⟩

/-- C8 witness on the state reached by two inserts. -/
theorem ids_unique_and_immutable_witness :
    ((applyOp (applyOp emptyDB (Op.insUser (some "alice") none none))
        (Op.insAddress (some "a@x") (some "north") (some 1))).users.map
      UserRow.id).Nodup ∧
    ((applyOp (applyOp emptyDB (Op.insUser (some "alice") none none))
        (Op.insAddress (some "a@x") (some "north") (some 1))).addresses.map
      AddressRow.id).Nodup ∧
    freshUserId
        (applyOp (applyOp emptyDB (Op.insUser (some "alice") none none))
          (Op.insAddress (some "a@x") (some "north") (some 1))) ∉
      (applyOp (applyOp emptyDB (Op.insUser (some "alice") none none))
        (Op.insAddress (some "a@x") (some "north") (some 1))).users.map
        UserRow.id ∧
    freshAddressId
        (applyOp (applyOp emptyDB (Op.insUser (some "alice") none none))
          (Op.insAddress (some "a@x") (some "north") (some 1))) ∉
      (applyOp (applyOp emptyDB (Op.insUser (some "alice") none none))
        (Op.insAddress (some "a@x") (some "north") (some 1))).addresses.map
        AddressRow.id :=
  ⟨(ids_unique_and_immutable _
      (Reachable.step _ _ (Reachable.step _ _ Reachable.init))).1,
    (ids_unique_and_immutable _
      (Reachable.step _ _ (Reachable.step _ _ Reachable.init))).2.1,
    (ids_unique_and_immutable _
      (Reachable.step _ _ (Reachable.step _ _ Reachable.init))).2.2.1,
    (ids_unique_and_immutable _
      (Reachable.step _ _ (Reachable.step _ _ Reachable.init))).2.2.2.1⟩

/-- Table user_account as the spec states it: id integer primary key,
name varchar 30 not null, fullname varchar 30 nullable, nickname
varchar 30 nullable. -/
def specUserAccountTable : Table :=
  { name := "user_account"
    columns :=
      [ ⟨"id", .integer, false, true, none⟩,
        ⟨"name", .varchar 30, false, false, none⟩,
        ⟨"fullname", .varchar 30, true, false, none⟩,
        ⟨"nickname", .varchar 30, true, false, none⟩ ] }

/-- Table address as the spec states it: id integer primary key,
email_address varchar 30 not null, neighborhood varchar 30 not null,
user_id integer not null referencing user_account.id. -/
def specAddressTable : Table :=
  { name := "address"
    columns :=
      [ ⟨"id", .integer, false, true, none⟩,
        ⟨"email_address", .varchar 30, false, false, none⟩,
        ⟨"neighborhood", .varchar 30, false, false, none⟩,
        ⟨"user_id", .integer, false, false, some "user_account.id"⟩ ] }

/-- C9: the schema generated from the two declared mapped classes is
exactly the two tables the spec states, with the stated column types,
nullability, primary keys and foreign key. -/
theorem schema_shape :
    schemaTables = [specUserAccountTable, specAddressTable] := by
  decide

/-- C10: in every reachable state the two relationship ends agree: an
address is in a user's derived addresses collection exactly when the
address's derived user back-reference is that user. -/
theorem bidirectional_consistency (s : DBState) (h : Reachable s)
    (u : UserRow) (hu : u ∈ s.users) (a : AddressRow)
    (ha : a ∈ s.addresses) :
    a ∈ addressesOf s u ↔ userOf s a = some u := by
  have hn := (invariant_reachable h).usersNodup
  constructor
  · intro hmem
    have hid : a.user_id = u.id := by
      have h2 := (List.mem_filter.mp hmem).2
      simpa using h2
    unfold userOf
    rw [hid]
    exact find_id_eq hn hu
  · intro hf
    have h1 := List.find?_some hf
    simp only [beq_iff_eq] at h1
    exact List.mem_filter.mpr ⟨ha, by simp [h1]⟩

/-- C10 witness on the state reached by two inserts. -/
theorem bidirectional_consistency_witness :
    (⟨1, "a@x", "north", 1⟩ : AddressRow) ∈
      addressesOf
        (applyOp (applyOp emptyDB (Op.insUser (some "alice") none none))
          (Op.insAddress (some "a@x") (some "north") (some 1)))
        ⟨1, "alice", none, none⟩ ↔
      userOf
        (applyOp (applyOp emptyDB (Op.insUser (some "alice") none none))
          (Op.insAddress (some "a@x") (some "north") (some 1)))
        ⟨1, "a@x", "north", 1⟩ = some ⟨1, "alice", none, none⟩ :=
  bidirectional_consistency _
    (Reachable.step _ _ (Reachable.step _ _ Reachable.init))
    ⟨1, "alice", none, none⟩ (by decide)
    ⟨1, "a@x", "north", 1⟩ (by decide)

end Models
